import Mathlib

/-!
Verification of the session lifecycle core of sveltekit-server-session
(src/lib/session.js), shallowly embedded in Lean 4.

Modelling conventions:
* JavaScript integer-valued numbers (unix timestamps, durations) are `Int`.
* The result type of the sveltekit-unsafe package, `{value, error:false|Error}`,
  is `Unsafe`.  A JS object is always truthy, which matters for the flush loop
  and is made explicit by `jsTruthy`.
* The single-threaded cooperative event loop is embedded by splitting the
  async `destroy` method at its suspension points (`destroyEnter`,
  `destroyResume`), so interleavings of concurrent callers are explicit
  sequential traces.
* The in-process `Map` that backs the default storage interface is an
  association list in insertion order (`Store`), matching JS Map iteration
  order.  Record objects are aliased between the map and the references the
  manager hands out; a mutation through one reference is visible through the
  other, which the model reflects by writing the updated record back into the
  map at the points where the source mutates a shared object.
-/

namespace SvelteKitSession

/-- Result object of the sveltekit-unsafe package: `ok(value)` carries a value
and a false error field, `error(e)` carries an error message. -/
inductive Unsafe (α : Type) where
  | ok (value : α)
  | err (message : String)
  deriving Repr, DecidableEq

/-- Truthiness of an `Unsafe` result under JavaScript coercion: the result is
an object, and every JS object coerces to true, whether it holds `ok` or
`error`.  (Only the fields `.error` / `.value` distinguish the two.) -/
def jsTruthy {α : Type} (_ : Unsafe α) : Bool := true

/-- Callbacks that occur in the events map of a session record:
user-registered listeners (tagged to observe invocation), the promise
resolver a concurrent `destroy` caller installs while another destroy is in
flight, and the `clearTimeout` handler `session.start` installs for the
auto-expiry timer. -/
inductive Callback where
  | user (tag : Nat)
  | resolver (caller : Nat)
  | cancelTimer (timer : Nat)
  deriving Repr, DecidableEq

/-- The session record object returned by `create` in src/lib/session.js:
the closed-over `id`, `data`, `created`, `expiresAtUnix`, the transient
`destroying` / `destroyed` flags, and the callback list stored under the
only event key, `destroy`.  `data` is the `Map<string,any>` data bag,
modelled as an association list of strings. -/
structure SessionRec where
  id : String
  data : List (String × String)
  createdUnix : Int
  expiresAtUnix : Int
  destroying : Bool
  destroyed : Bool
  destroyListeners : List Callback
  deriving Repr, DecidableEq

/-- Transcription of `create({id, data})` (src/lib/session.js:40-56): the
creation timestamp is the current unix time, the duration is the module-level
`durationUnix` at call time, `expiresAtUnix = created + duration`, both flags
start false, and the events map holds an empty list under `destroy`. -/
def create (id : String) (data : List (String × String))
    (now durationUnix : Int) : SessionRec :=
  { id := id
    data := data
    createdUnix := now
    expiresAtUnix := now + durationUnix
    destroying := false
    destroyed := false
    destroyListeners := [] }

/-- Transcription of `getRemainingSeconds()` (src/lib/session.js:70-74):
`remaining = expiresAtUnix - now`, returned when nonnegative, else 0. -/
def getRemainingSeconds (s : SessionRec) (now : Int) : Int :=
  let remaining := s.expiresAtUnix - now
  if remaining ≥ 0 then remaining else 0

/-- Transcription of `addEventListener(event, callback)`
(src/lib/session.js:102-108): if the events map has no list for the event
(any event other than `destroy`), do nothing; otherwise push the callback. -/
def addEventListener (s : SessionRec) (event : String) (cb : Callback) :
    SessionRec :=
  if event = "destroy" then
    { s with destroyListeners := s.destroyListeners ++ [cb] }
  else s

/-- Transcription of `removeEventListener(event, callback)`
(src/lib/session.js:109-120).  The source calls `callbacks.filter(...)`,
which returns a new array, but never assigns that array; it then stores the
original `callbacks` array back under the event key.  The listener list is
therefore unchanged.  The unused filter result is kept here to mirror the
source line. -/
def removeEventListener (s : SessionRec) (event : String) (cb : Callback) :
    SessionRec :=
  if event = "destroy" then
    let _filtered := s.destroyListeners.filter (fun c => c ≠ cb)
    { s with destroyListeners := s.destroyListeners }
  else s

/-- Module-level configuration of src/lib/session.js: `sessionKey` and
`durationUnix` (default 7 days in seconds). -/
structure Config where
  sessionKey : String
  durationUnix : Int
  deriving Repr, DecidableEq

/-- Initial module state: `sessionKey = KITSESSID`,
`durationUnix = 60 * 60 * 24 * 7`. -/
def defaultConfig : Config :=
  { sessionKey := "KITSESSID", durationUnix := 60 * 60 * 24 * 7 }

/-- Transcription of `session.setDurationUnix({seconds})`
(src/lib/session.js:220-222): overwrite the module duration with `seconds`,
with no validation of the argument. -/
def setDurationUnix (cfg : Config) (seconds : Int) : Config :=
  { cfg with durationUnix := seconds }

/-- C8: for every record and every current time, `getRemainingSeconds`
returns `max 0 (expiresAtUnix - now)`; in particular it is never negative,
however far past `expiresAtUnix` the current time is. -/
theorem getRemainingSeconds_eq_max (s : SessionRec) (now : Int) :
    getRemainingSeconds s now = max 0 (s.expiresAtUnix - now) ∧
    0 ≤ getRemainingSeconds s now := by
  unfold getRemainingSeconds
  constructor
  · dsimp only
    split <;> omega
  · dsimp only
    split <;> omega

/-- C7, counterexample: `setDurationUnix` accepts a negative duration without
validation, and a record created afterwards has `expiresAtUnix` strictly
below `createdUnix`, violating the claimed invariant. -/
theorem create_negative_duration_breaks_invariant :
    (setDurationUnix defaultConfig (-1)).durationUnix = -1 ∧
    (create "a" [] 100 (setDurationUnix defaultConfig (-1)).durationUnix).expiresAtUnix = 99 ∧
    ¬ ((create "a" [] 100 (setDurationUnix defaultConfig (-1)).durationUnix).expiresAtUnix ≥
        (create "a" [] 100 (setDurationUnix defaultConfig (-1)).durationUnix).createdUnix) := by
  refine ⟨rfl, rfl, ?_⟩
  decide

/-- C7, amended: whenever the configured duration is nonnegative (true of the
default configuration and preserved by any `setDurationUnix` call with
nonnegative seconds), every created record satisfies
`expiresAtUnix = createdUnix + duration ≥ createdUnix`; the expiry timestamp
is computed once at creation and no record operation changes it
(`addEventListener` and `removeEventListener` shown here; the destroy
machinery is covered by later lemmas on the same structure fields). -/
theorem create_expiry_invariant (id : String) (data : List (String × String))
    (now : Int) (cfg : Config) (hdur : 0 ≤ cfg.durationUnix) :
    (create id data now cfg.durationUnix).expiresAtUnix =
      (create id data now cfg.durationUnix).createdUnix + cfg.durationUnix ∧
    (create id data now cfg.durationUnix).createdUnix ≤
      (create id data now cfg.durationUnix).expiresAtUnix ∧
    (∀ e cb, (addEventListener (create id data now cfg.durationUnix) e cb).expiresAtUnix =
      (create id data now cfg.durationUnix).expiresAtUnix) ∧
    (∀ e cb, (removeEventListener (create id data now cfg.durationUnix) e cb).expiresAtUnix =
      (create id data now cfg.durationUnix).expiresAtUnix) := by
  refine ⟨rfl, by simp [create]; omega, ?_, ?_⟩
  · intro e cb
    unfold addEventListener
    split <;> rfl
  · intro e cb
    unfold removeEventListener
    split <;> rfl

/-- C7 witness: the amended invariant instantiated at the default
configuration, id `a`, empty data bag, creation time 100. -/
theorem create_expiry_invariant_witness :
    0 ≤ defaultConfig.durationUnix ∧
    ((create "a" [] 100 defaultConfig.durationUnix).expiresAtUnix =
      (create "a" [] 100 defaultConfig.durationUnix).createdUnix + defaultConfig.durationUnix ∧
    (create "a" [] 100 defaultConfig.durationUnix).createdUnix ≤
      (create "a" [] 100 defaultConfig.durationUnix).expiresAtUnix ∧
    (∀ e cb, (addEventListener (create "a" [] 100 defaultConfig.durationUnix) e cb).expiresAtUnix =
      (create "a" [] 100 defaultConfig.durationUnix).expiresAtUnix) ∧
    (∀ e cb, (removeEventListener (create "a" [] 100 defaultConfig.durationUnix) e cb).expiresAtUnix =
      (create "a" [] 100 defaultConfig.durationUnix).expiresAtUnix)) :=
  ⟨by decide, create_expiry_invariant "a" [] 100 defaultConfig (by decide)⟩

/-- The module-level `Map<string, Session>` of src/lib/session.js:33,
as an association list in insertion order (JS Map iteration order). -/
structure Store where
  entries : List (String × SessionRec)
  deriving Repr, DecidableEq

/-- JS `map.has(id)`. -/
def mapHas (st : Store) (id : String) : Bool :=
  st.entries.any (fun e => e.1 = id)

/-- JS `map.get(id)`: the value stored under the key, or undefined. -/
def mapGet (st : Store) (id : String) : Option SessionRec :=
  (st.entries.find? (fun e => e.1 = id)).map Prod.snd

/-- JS `map.set(id, session)`: overwrite in place when the key is present,
append otherwise. -/
def mapSet (st : Store) (id : String) (s : SessionRec) : Store :=
  if mapHas st id then
    ⟨st.entries.map (fun e => if e.1 = id then (id, s) else e)⟩
  else ⟨st.entries ++ [(id, s)]⟩

/-- JS `map.delete(id)`. -/
def mapDelete (st : Store) (id : String) : Store :=
  ⟨st.entries.filter (fun e => e.1 ≠ id)⟩

/-- Transcription of `_interface.exists` (src/lib/session.js:188-190). -/
def interfaceExists (st : Store) (id : String) : Unsafe Bool :=
  .ok (mapHas st id)

/-- Transcription of `_interface.isValid` (src/lib/session.js:191-197):
false for an unknown id, otherwise whether the remaining seconds of the
stored record are strictly positive. -/
def interfaceIsValid (st : Store) (id : String) (now : Int) : Unsafe Bool :=
  match mapGet st id with
  | none => .ok false
  | some s => .ok (getRemainingSeconds s now > 0)

/-- Transcription of `_interface.has` (src/lib/session.js:198-200). -/
def interfaceHas (st : Store) (id : String) : Unsafe Bool :=
  .ok (mapHas st id)

/-- Transcription of `_interface.get` (src/lib/session.js:201-203): always a
success result, whose value is undefined when the id is unknown. -/
def interfaceGet (st : Store) (id : String) : Unsafe (Option SessionRec) :=
  .ok (mapGet st id)

/-- Transcription of `_interface.set` (src/lib/session.js:204-207). -/
def interfaceSet (st : Store) (id : String) (s : SessionRec) :
    Unsafe Unit × Store :=
  (.ok (), mapSet st id s)

/-- Observable state surrounding the session records: the backing store, the
count of physical `_interface.delete` calls that reached the backend, and the
effects of the three callback kinds (user listeners invoked, concurrent
destroy callers resolved with a success result, timers cleared). -/
structure World where
  store : Store
  deleteCalls : Nat
  invokedUsers : List Nat
  resolvedCallers : List Nat
  cancelledTimers : List Nat
  deriving Repr, DecidableEq

/-- Transcription of `_interface.delete` (src/lib/session.js:208-211) against
the default in-memory backend, instrumented with a call counter: the entry is
removed and the result is always a success. -/
def worldDelete (w : World) (id : String) : Unsafe Unit × World :=
  (.ok (), { w with store := mapDelete w.store id
                  , deleteCalls := w.deleteCalls + 1 })

/-- Effect of invoking one callback from the destroy event list
(src/lib/session.js:96-98): a user listener records its invocation, the
resolver installed by a waiting concurrent destroy caller resolves that
caller with `ok()` (src/lib/session.js:82-86), and the listener installed by
`session.start` clears the auto-expiry timer (src/lib/session.js:287-289). -/
def runCallback (w : World) (cb : Callback) : World :=
  match cb with
  | .user tag => { w with invokedUsers := w.invokedUsers ++ [tag] }
  | .resolver caller => { w with resolvedCallers := w.resolvedCallers ++ [caller] }
  | .cancelTimer t => { w with cancelledTimers := w.cancelledTimers ++ [t] }

/-- Where a `destroy()` caller stands after the synchronous prefix of the
method: already returned, suspended at `await _interface.delete(id)`, or
suspended on the promise that a concurrent caller resolves at the destroy
event. -/
inductive DestroyEntry where
  | returned (result : Unsafe Unit)
  | awaitingDelete
  | awaitingEvent
  deriving Repr, DecidableEq

/-- Synchronous prefix of `destroy()` (src/lib/session.js:75-88): return
`ok()` at once when already destroyed; when a destroy is already in flight,
install a resolver listener and suspend on its promise; otherwise set the
`destroying` flag and suspend at the storage delete. -/
def destroyEnter (caller : Nat) (r : SessionRec) : DestroyEntry × SessionRec :=
  if r.destroyed then (.returned (.ok ()), r)
  else if r.destroying then
    (.awaitingEvent, addEventListener r "destroy" (.resolver caller))
  else (.awaitingDelete, { r with destroying := true })

/-- Continuation of `destroy()` past `await _interface.delete(id)`
(src/lib/session.js:89-100) against the default backend: the delete removes
the map entry and reports success, so the error return is not taken; the
record is marked destroyed, then every listener in the destroy event list is
invoked in order, and `ok()` is returned. -/
def destroyResume (r : SessionRec) (w : World) :
    Unsafe Unit × SessionRec × World :=
  let p := worldDelete w r.id
  match p.1 with
  | .err m => (.err m, r, p.2)
  | .ok _ =>
    let r2 : SessionRec := { r with destroyed := true }
    (.ok (), r2, r2.destroyListeners.foldl runCallback p.2)

/-- One complete `destroy()` run by a single caller with no interleaving:
the synchronous entry followed, when it suspended at the storage delete, by
the resumption.  A caller that suspended on the destroy event has no result
of its own (`none`): it is resolved by the in-flight run. -/
def destroyRun (caller : Nat) (r : SessionRec) (w : World) :
    Option (Unsafe Unit) × SessionRec × World :=
  match destroyEnter caller r with
  | (.returned res, r2) => (some res, r2, w)
  | (.awaitingDelete, r2) =>
    let q := destroyResume r2 w
    (some q.1, q.2.1, q.2.2)
  | (.awaitingEvent, r2) => (none, r2, w)

/-- Transcription of the manager-level `session.destroy({id})`
(src/lib/session.js:298-315): fetch the record through the interface, fail
with a not-found error when absent, otherwise call the storage delete
directly.  The record object itself is not consulted: its flags stay
untouched and no destroy event is dispatched. -/
def managerDestroy (id : String) (w : World) : Unsafe Unit × World :=
  match interfaceGet w.store id with
  | .err m => (.err m, w)
  | .ok none => (.err ("Session " ++ id ++ " not found."), w)
  | .ok (some _sessionLocal) =>
    let p := worldDelete w id
    match p.1 with
    | .err m => (.err m, p.2)
    | .ok _ => (.ok (), p.2)

/-- The callback dispatch loop never calls the storage backend: the delete
counter is untouched. -/
theorem foldl_runCallback_deleteCalls (l : List Callback) (w : World) :
    (l.foldl runCallback w).deleteCalls = w.deleteCalls := by
  induction l generalizing w with
  | nil => rfl
  | cons cb rest ih =>
    rw [List.foldl_cons, ih]
    cases cb <;> rfl

/-- The callback dispatch loop does not touch the store. -/
theorem foldl_runCallback_store (l : List Callback) (w : World) :
    (l.foldl runCallback w).store = w.store := by
  induction l generalizing w with
  | nil => rfl
  | cons cb rest ih =>
    rw [List.foldl_cons, ih]
    cases cb <;> rfl

/-- Dispatching one callback keeps every already-resolved caller resolved. -/
theorem mem_resolvedCallers_runCallback (w : World) (cb : Callback) (c : Nat)
    (h : c ∈ w.resolvedCallers) : c ∈ (runCallback w cb).resolvedCallers := by
  cases cb <;> simp_all [runCallback]

/-- The callback dispatch loop keeps every already-resolved caller resolved. -/
theorem mem_resolvedCallers_foldl (l : List Callback) (w : World) (c : Nat)
    (h : c ∈ w.resolvedCallers) : c ∈ (l.foldl runCallback w).resolvedCallers := by
  induction l generalizing w with
  | nil => exact h
  | cons cb rest ih =>
    exact ih _ (mem_resolvedCallers_runCallback w cb c h)

/-- Dispatching the callback list resolves every waiting caller whose
resolver is in the list. -/
theorem resolver_resolved_foldl (l : List Callback) (w : World) (c : Nat)
    (h : Callback.resolver c ∈ l) : c ∈ (l.foldl runCallback w).resolvedCallers := by
  induction l generalizing w with
  | nil => cases h
  | cons cb rest ih =>
    rcases List.mem_cons.mp h with hhd | htl
    · subst hhd
      exact mem_resolvedCallers_foldl rest _ c (by simp [runCallback])
    · exact ih _ htl

/-- Dispatching one callback keeps every already-cleared timer cleared. -/
theorem mem_cancelledTimers_runCallback (w : World) (cb : Callback) (t : Nat)
    (h : t ∈ w.cancelledTimers) : t ∈ (runCallback w cb).cancelledTimers := by
  cases cb <;> simp_all [runCallback]

/-- The callback dispatch loop keeps every already-cleared timer cleared. -/
theorem mem_cancelledTimers_foldl (l : List Callback) (w : World) (t : Nat)
    (h : t ∈ w.cancelledTimers) : t ∈ (l.foldl runCallback w).cancelledTimers := by
  induction l generalizing w with
  | nil => exact h
  | cons cb rest ih =>
    exact ih _ (mem_cancelledTimers_runCallback w cb t h)

/-- Dispatching the callback list clears every timer whose cancel handler is
in the list. -/
theorem cancelTimer_cleared_foldl (l : List Callback) (w : World) (t : Nat)
    (h : Callback.cancelTimer t ∈ l) : t ∈ (l.foldl runCallback w).cancelledTimers := by
  induction l generalizing w with
  | nil => cases h
  | cons cb rest ih =>
    rcases List.mem_cons.mp h with hhd | htl
    · subst hhd
      exact mem_cancelledTimers_foldl rest _ t (by simp [runCallback])
    · exact ih _ htl

/-- C3: on a record with no destroy yet started, a first `destroy()` caller
suspends at the storage delete; a second caller arriving while that delete is
in flight suspends on the destroy event instead of issuing its own delete;
when the delete completes, the first caller returns `ok()`, the second caller
is resolved with `ok()`, and exactly one delete call reached the backend. -/
theorem destroy_concurrent_single_delete (r : SessionRec) (w : World)
    (hd : r.destroyed = false) (hg : r.destroying = false) :
    (destroyEnter 1 r).1 = .awaitingDelete ∧
    (destroyEnter 2 (destroyEnter 1 r).2).1 = .awaitingEvent ∧
    (destroyResume (destroyEnter 2 (destroyEnter 1 r).2).2 w).1 = .ok () ∧
    2 ∈ (destroyResume (destroyEnter 2 (destroyEnter 1 r).2).2 w).2.2.resolvedCallers ∧
    (destroyResume (destroyEnter 2 (destroyEnter 1 r).2).2 w).2.2.deleteCalls
      = w.deleteCalls + 1 := by
  have h1 : destroyEnter 1 r = (.awaitingDelete, { r with destroying := true }) := by
    simp [destroyEnter, hd, hg]
  have h2 : destroyEnter 2 { r with destroying := true } =
      (.awaitingEvent,
        { r with destroying := true
               , destroyListeners := r.destroyListeners ++ [Callback.resolver 2] }) := by
    simp [destroyEnter, hd, addEventListener]
  rw [h1]
  dsimp only
  rw [h2]
  dsimp only
  refine ⟨rfl, rfl, ?_, ?_, ?_⟩
  · simp [destroyResume, worldDelete]
  · simp only [destroyResume, worldDelete]
    exact resolver_resolved_foldl _ _ 2 (by simp)
  · simp only [destroyResume, worldDelete]
    rw [foldl_runCallback_deleteCalls]

/-- C3 witness: the concurrent-destroy property instantiated on a freshly
created record and an empty world. -/
theorem destroy_concurrent_single_delete_witness :
    ((create "a" [] 0 10).destroyed = false ∧ (create "a" [] 0 10).destroying = false) ∧
    ((destroyEnter 1 (create "a" [] 0 10)).1 = .awaitingDelete ∧
     (destroyEnter 2 (destroyEnter 1 (create "a" [] 0 10)).2).1 = .awaitingEvent ∧
     (destroyResume (destroyEnter 2 (destroyEnter 1 (create "a" [] 0 10)).2).2
        ⟨⟨[]⟩, 0, [], [], []⟩).1 = .ok () ∧
     2 ∈ (destroyResume (destroyEnter 2 (destroyEnter 1 (create "a" [] 0 10)).2).2
        ⟨⟨[]⟩, 0, [], [], []⟩).2.2.resolvedCallers ∧
     (destroyResume (destroyEnter 2 (destroyEnter 1 (create "a" [] 0 10)).2).2
        ⟨⟨[]⟩, 0, [], [], []⟩).2.2.deleteCalls = (⟨⟨[]⟩, 0, [], [], []⟩ : World).deleteCalls + 1) :=
  ⟨⟨rfl, rfl⟩, destroy_concurrent_single_delete (create "a" [] 0 10) ⟨⟨[]⟩, 0, [], [], []⟩ rfl rfl⟩

/-- C4: a full `destroy()` run on a record with no destroy yet started
returns success; a second, sequential `destroy()` run on the now-destroyed
record returns success immediately, and across both runs exactly one
physical delete reached the storage backend. -/
theorem destroy_sequential_idempotent (r : SessionRec) (w : World)
    (hd : r.destroyed = false) (hg : r.destroying = false) :
    (destroyRun 1 r w).1 = some (.ok ()) ∧
    (destroyRun 2 (destroyRun 1 r w).2.1 (destroyRun 1 r w).2.2).1 = some (.ok ()) ∧
    (destroyRun 2 (destroyRun 1 r w).2.1 (destroyRun 1 r w).2.2).2.2.deleteCalls
      = w.deleteCalls + 1 := by
  have h1 : destroyRun 1 r w =
      (some (.ok ()),
       { r with destroying := true, destroyed := true },
       (({ r with destroying := true, destroyed := true } : SessionRec).destroyListeners.foldl
          runCallback (worldDelete w r.id).2)) := by
    simp [destroyRun, destroyEnter, hd, hg, destroyResume, worldDelete]
  rw [h1]
  dsimp only
  refine ⟨rfl, ?_, ?_⟩
  · simp [destroyRun, destroyEnter]
  · simp [destroyRun, destroyEnter, foldl_runCallback_deleteCalls, worldDelete]

/-- C4 witness: sequential destroy idempotence instantiated on a freshly
created record and an empty world. -/
theorem destroy_sequential_idempotent_witness :
    ((create "b" [] 0 10).destroyed = false ∧ (create "b" [] 0 10).destroying = false) ∧
    ((destroyRun 1 (create "b" [] 0 10) ⟨⟨[]⟩, 0, [], [], []⟩).1 = some (.ok ()) ∧
     (destroyRun 2 (destroyRun 1 (create "b" [] 0 10) ⟨⟨[]⟩, 0, [], [], []⟩).2.1
        (destroyRun 1 (create "b" [] 0 10) ⟨⟨[]⟩, 0, [], [], []⟩).2.2).1 = some (.ok ()) ∧
     (destroyRun 2 (destroyRun 1 (create "b" [] 0 10) ⟨⟨[]⟩, 0, [], [], []⟩).2.1
        (destroyRun 1 (create "b" [] 0 10) ⟨⟨[]⟩, 0, [], [], []⟩).2.2).2.2.deleteCalls
       = (⟨⟨[]⟩, 0, [], [], []⟩ : World).deleteCalls + 1) :=
  ⟨⟨rfl, rfl⟩, destroy_sequential_idempotent (create "b" [] 0 10) ⟨⟨[]⟩, 0, [], [], []⟩ rfl rfl⟩

/-- Concrete record for the manager-destroy counterexample: a freshly created
record on which `session.start` has installed the cancel handler for timer 7,
as it does for every record it returns. -/
def recManaged : SessionRec :=
  addEventListener (create "a" [] 0 1000) "destroy" (.cancelTimer 7)

/-- Concrete world for the manager-destroy counterexample: the store holds
`recManaged` under its id and no effect has been observed yet. -/
def worldManaged : World :=
  { store := ⟨[("a", recManaged)]⟩
    deleteCalls := 0
    invokedUsers := []
    resolvedCallers := []
    cancelledTimers := [] }

/-- C5, counterexample: the record `recManaged` carries the cancel handler of
its armed expiry timer, and the manager-level `session.destroy({id})` on it
succeeds and removes it from storage with one physical delete — yet no timer
is cancelled, because this path never dispatches the destroy event.  The
claim states the timer is cancelled whenever the record is destroyed through
this path, which is false here. -/
theorem managerDestroy_leaves_timer_armed :
    recManaged.destroyListeners = [Callback.cancelTimer 7] ∧
    (managerDestroy "a" worldManaged).1 = .ok () ∧
    mapHas (managerDestroy "a" worldManaged).2.store "a" = false ∧
    (managerDestroy "a" worldManaged).2.deleteCalls = 1 ∧
    (managerDestroy "a" worldManaged).2.cancelledTimers = [] := by
  refine ⟨rfl, rfl, ?_, rfl, rfl⟩
  decide

/-- C5, amended: destroying a record through the record-level `destroy()`
cancels the armed expiry timer (the cancel handler installed by `start` is
dispatched with the destroy event), but the manager-level
`session.destroy({id})` bypasses the record state machine entirely: it never
cancels a timer, invokes no user listener and resolves no waiting caller, on
any input. -/
theorem timer_cancelled_only_on_record_destroy (r : SessionRec) (w : World) (t : Nat)
    (hd : r.destroyed = false) (hg : r.destroying = false)
    (hmem : Callback.cancelTimer t ∈ r.destroyListeners) :
    (destroyRun 1 r w).1 = some (.ok ()) ∧
    t ∈ (destroyRun 1 r w).2.2.cancelledTimers ∧
    (∀ id w2, ((managerDestroy id w2).2).cancelledTimers = w2.cancelledTimers ∧
              ((managerDestroy id w2).2).invokedUsers = w2.invokedUsers ∧
              ((managerDestroy id w2).2).resolvedCallers = w2.resolvedCallers) := by
  refine ⟨?_, ?_, ?_⟩
  · simp [destroyRun, destroyEnter, hd, hg, destroyResume, worldDelete]
  · simp only [destroyRun, destroyEnter, hd, hg, destroyResume, worldDelete]
    simp only [Bool.false_eq_true, if_false]
    exact cancelTimer_cleared_foldl _ _ t hmem
  · intro id w2
    unfold managerDestroy interfaceGet
    cases mapGet w2.store id <;> simp [worldDelete]

/-- C5 witness: the amended statement instantiated on `recManaged` (which
carries the cancel handler of timer 7) and the world `worldManaged`. -/
theorem timer_cancelled_only_on_record_destroy_witness :
    (recManaged.destroyed = false ∧ recManaged.destroying = false ∧
      Callback.cancelTimer 7 ∈ recManaged.destroyListeners) ∧
    ((destroyRun 1 recManaged worldManaged).1 = some (.ok ()) ∧
     7 ∈ (destroyRun 1 recManaged worldManaged).2.2.cancelledTimers ∧
     (∀ id w2, ((managerDestroy id w2).2).cancelledTimers = w2.cancelledTimers ∧
               ((managerDestroy id w2).2).invokedUsers = w2.invokedUsers ∧
               ((managerDestroy id w2).2).resolvedCallers = w2.resolvedCallers)) :=
  ⟨⟨rfl, rfl, by decide⟩,
   timer_cancelled_only_on_record_destroy recManaged worldManaged 7 rfl rfl (by decide)⟩

/-- Concrete record for the remove-listener claim: a fresh record on which
user listener 3 was registered with `addEventListener` and then unregistered
with `removeEventListener`. -/
def recRemoved : SessionRec :=
  removeEventListener (addEventListener (create "a" [] 0 10) "destroy" (.user 3))
    "destroy" (.user 3)

/-- Concrete world holding `recRemoved` in the store. -/
def worldRemoved : World :=
  { store := ⟨[("a", recRemoved)]⟩
    deleteCalls := 0
    invokedUsers := []
    resolvedCallers := []
    cancelledTimers := [] }

/-- C9: `removeEventListener` discards the result of the filter call and
stores the original callback array back, so it removes nothing on any input
(it is the identity on the record), and a listener registered then removed is
still invoked when `destroy()` completes successfully: after add and remove
of user listener 3, the listener list still holds it, and the destroy run
succeeds and invokes it. -/
theorem removeEventListener_listener_still_invoked :
    (∀ (s : SessionRec) (e : String) (cb : Callback), removeEventListener s e cb = s) ∧
    recRemoved.destroyListeners = [Callback.user 3] ∧
    (destroyRun 1 recRemoved worldRemoved).1 = some (.ok ()) ∧
    (destroyRun 1 recRemoved worldRemoved).2.2.invokedUsers = [3] := by
  refine ⟨?_, rfl, rfl, rfl⟩
  intro s e cb
  unfold removeEventListener
  split <;> rfl

/-- The id minting loop of `session.start` (src/lib/session.js:246-256):
repeatedly draw a candidate from the uuid generator and probe the storage
interface until a candidate the store does not know is found.  The candidate
draws are the `uuids` argument; an exhausted list (which the unbounded source
loop cannot exhibit) and an interface error (which the default backend never
produces) are both modelled as `none`. -/
def mintId (st : Store) : List String → Option String
  | [] => none
  | u :: rest =>
    match interfaceExists st u with
    | .err _ => none
    | .ok true => mintId st rest
    | .ok false => some u

/-- Tail of `session.start` (src/lib/session.js:283-291): a single-shot timer
with delay `getRemainingSeconds() * 1000` is armed to destroy the record, and
a destroy listener that clears that timer is pushed onto the record.  The
cancel handler carrying `timerId` stands for the armed timer handle.  Because
the record object is aliased between the map and the returned reference, the
listener pushed here is visible through the stored entry as well, which the
model reflects by writing the record back under its id. -/
def startFinish (sessionLocal : SessionRec) (st : Store) (timerId : Nat) :
    Unsafe SessionRec × Store :=
  let armed := addEventListener sessionLocal "destroy" (.cancelTimer timerId)
  (.ok armed, mapSet st armed.id armed)

/-- Transcription of `session.start` (src/lib/session.js:243-292): read the
presented cookie value, defaulting to the empty string; mint a fresh id only
when that value is empty; then ask the interface whether the id is stored —
if so, fetch and use the stored record as is (no validity check), otherwise
create a record with an empty data bag and store it; finally arm the expiry
timer and its cancel listener.  The `.ok none` fetch outcome (absent although
`has` just returned true) cannot occur with the default backend and is
modelled as `none`. -/
def start (cookie : Option String) (uuids : List String) (now durationUnix : Int)
    (st : Store) (timerId : Nat) : Option (Unsafe SessionRec × Store) :=
  let id0 := cookie.getD ""
  let idOpt := if id0 = "" then mintId st uuids else some id0
  match idOpt with
  | none => none
  | some id =>
    match interfaceHas st id with
    | .err m => some (.err m, st)
    | .ok true =>
      match interfaceGet st id with
      | .err m => some (.err m, st)
      | .ok none => none
      | .ok (some sessionLocal) => some (startFinish sessionLocal st timerId)
    | .ok false =>
      let sessionLocal := create id [] now durationUnix
      match interfaceSet st id sessionLocal with
      | (.err m, _) => some (.err m, st)
      | (.ok _, st2) => some (startFinish sessionLocal st2 timerId)

/-- The records `session.flush` (src/lib/session.js:321-339) collects for
destruction: the loop tests `if (await _interface.isValid(session.id))` and
continues when the test passes.  The awaited expression is the `Unsafe`
result object itself — not its boolean value field — and a JS object is
always truthy, so the test passes for every entry and nothing is collected. -/
def flushCollect (w : World) (now : Int) : List SessionRec :=
  (w.store.entries.map Prod.snd).filter
    (fun s => ! jsTruthy (interfaceIsValid w.store s.id now))

/-- Transcription of `session.flush`: return at once when a flush is already
running (the module-level `flushing` semaphore), otherwise destroy every
collected record through the record-level `destroy()` and await all. -/
def flush (flushing : Bool) (w : World) (now : Int) : World :=
  if flushing then w
  else (flushCollect w now).foldl (fun wacc s => (destroyRun 0 s wacc).2.2) w

/-- Store for the flush claim: record `a` expired at time 100 (its expiry is
50), record `b` still valid (expiry 200). -/
def storeFlush : Store := ⟨[("a", create "a" [] 0 50), ("b", create "b" [] 0 200)]⟩

/-- World holding `storeFlush` with no observed effects. -/
def worldFlush : World :=
  { store := storeFlush
    deleteCalls := 0
    invokedUsers := []
    resolvedCallers := []
    cancelledTimers := [] }

/-- C2: in `storeFlush` at time 100, the interface reports record `a` invalid
and record `b` valid, yet a completed flush run changes nothing at all — on
every input `flush` is the identity, because the truthiness test on the
`Unsafe` object collects no record — so the invalid record `a` is still
stored afterwards, contradicting the claim that every invalid record is
removed. -/
theorem flush_keeps_invalid_record :
    interfaceIsValid storeFlush "a" 100 = .ok false ∧
    interfaceIsValid storeFlush "b" 100 = .ok true ∧
    (∀ (fl : Bool) (w : World) (now : Int), flush fl w now = w) ∧
    mapHas (flush false worldFlush 100).store "a" = true := by
  refine ⟨by decide, by decide, ?_, by decide⟩
  intro fl w now
  unfold flush flushCollect jsTruthy
  split
  · rfl
  · simp

/-- Expired record for the start claim: created at 0 with duration 50, its
data bag mutated by handler code to hold one entry. -/
def recExpired : SessionRec := create "sid" [("quote", "old")] 0 50

/-- Store holding only the expired record under its id. -/
def storeExpired : Store := ⟨[("sid", recExpired)]⟩

/-- Projection of a `start` outcome to the data bag of the returned session,
when the outcome is a success. -/
def startData (o : Option (Unsafe SessionRec × Store)) :
    Option (List (String × String)) :=
  match o with
  | some (.ok rec, _) => some rec.data
  | _ => none

/-- C1: at time 100 the stored record `sid` has 0 remaining seconds and the
interface itself reports it invalid, yet `start` presented with that id
returns a success carrying exactly the expired record and its old data bag —
`start` consults only `has` and `get`, never `isValid`, so the expired data
is surfaced, contradicting the claim (and the doc comment of `start`, which
promises a new session when the parked one is expired). -/
theorem start_surfaces_expired_data :
    getRemainingSeconds recExpired 100 = 0 ∧
    interfaceIsValid storeExpired "sid" 100 = .ok false ∧
    startData (start (some "sid") [] 100 604800 storeExpired 9) =
      some [("quote", "old")] := by
  refine ⟨by decide, by decide, by decide⟩

/-- Replacing the entry under a key that some entry carries makes lookup of
that key return the replacement. -/
theorem find?_map_replace (l : List (String × SessionRec)) (id : String)
    (r : SessionRec) (h : l.any (fun e => e.1 = id) = true) :
    (l.map (fun e => if e.1 = id then (id, r) else e)).find?
      (fun e => e.1 = id) = some (id, r) := by
  induction l with
  | nil => simp at h
  | cons x xs ih =>
    by_cases hx : x.1 = id
    · simp [hx, List.find?]
    · have htl : xs.any (fun e => e.1 = id) = true := by
        simp [List.any_cons, hx] at h
        simpa using h
      simp [List.map_cons, hx, List.find?, ih htl]

/-- Appending an entry under a key no existing entry carries makes lookup of
that key return the appended entry. -/
theorem find?_append_fresh (l : List (String × SessionRec)) (id : String)
    (r : SessionRec) (h : l.any (fun e => e.1 = id) = false) :
    (l ++ [(id, r)]).find? (fun e => e.1 = id) = some (id, r) := by
  induction l with
  | nil => simp [List.find?]
  | cons x xs ih =>
    have hx : (x.1 = id) = False := by
      simp [List.any_cons] at h
      simp [h.1]
    have htl : xs.any (fun e => e.1 = id) = false := by
      simp [List.any_cons] at h
      simp
      exact h.2
    simp [List.cons_append, List.find?, hx, ih htl]

/-- A `map.set` followed by a `map.get` of the same key returns the value
just stored, whether the key was fresh or overwritten. -/
theorem mapGet_mapSet_self (st : Store) (id : String) (r : SessionRec) :
    mapGet (mapSet st id r) id = some r := by
  unfold mapGet mapSet mapHas
  by_cases h : st.entries.any (fun e => e.1 = id) = true
  · simp only [h, if_true]
    rw [find?_map_replace st.entries id r h]
    rfl
  · have h2 : st.entries.any (fun e => e.1 = id) = false := by
      revert h
      cases st.entries.any (fun e => e.1 = id) <;> simp
    simp only [h2, Bool.false_eq_true, if_false]
    rw [find?_append_fresh st.entries id r h2]
    rfl

/-- C10: presenting a non-empty cookie value the store does not know makes
`start` take the fresh-creation path with that exact value as the id: the id
minting loop is not consulted (the outcome is the same for every uuid
stream), the returned record carries the presented id verbatim, an empty data
bag and the current creation time, and the record is stored under that id. -/
theorem start_uses_presented_id (s : String) (uuids : List String)
    (now dur : Int) (st : Store) (tid : Nat)
    (hne : s ≠ "") (habs : mapHas st s = false) :
    start (some s) uuids now dur st tid =
      some (startFinish (create s [] now dur) (mapSet st s (create s [] now dur)) tid) ∧
    (startFinish (create s [] now dur) (mapSet st s (create s [] now dur)) tid).1 =
      .ok (addEventListener (create s [] now dur) "destroy" (.cancelTimer tid)) ∧
    (addEventListener (create s [] now dur) "destroy" (.cancelTimer tid)).id = s ∧
    (addEventListener (create s [] now dur) "destroy" (.cancelTimer tid)).data = [] ∧
    (addEventListener (create s [] now dur) "destroy" (.cancelTimer tid)).createdUnix = now ∧
    mapGet (startFinish (create s [] now dur) (mapSet st s (create s [] now dur)) tid).2 s =
      some (addEventListener (create s [] now dur) "destroy" (.cancelTimer tid)) ∧
    start (some s) uuids now dur st tid = start (some s) [] now dur st tid := by
  have key : ∀ us : List String, start (some s) us now dur st tid =
      some (startFinish (create s [] now dur) (mapSet st s (create s [] now dur)) tid) := by
    intro us
    unfold start
    simp [hne, interfaceHas, habs, interfaceSet]
  refine ⟨key uuids, rfl, rfl, rfl, rfl, ?_, (key uuids).trans (key []).symm⟩
  unfold startFinish
  exact mapGet_mapSet_self _ _ _

/-- C10 witness: the presented-id property instantiated on the cookie value
`client-chosen` and an empty store. -/
theorem start_uses_presented_id_witness :
    ("client-chosen" ≠ "" ∧ mapHas ⟨[]⟩ "client-chosen" = false) ∧
    (start (some "client-chosen") ["u1"] 0 10 ⟨[]⟩ 5 =
      some (startFinish (create "client-chosen" [] 0 10)
        (mapSet ⟨[]⟩ "client-chosen" (create "client-chosen" [] 0 10)) 5) ∧
    (startFinish (create "client-chosen" [] 0 10)
        (mapSet ⟨[]⟩ "client-chosen" (create "client-chosen" [] 0 10)) 5).1 =
      .ok (addEventListener (create "client-chosen" [] 0 10) "destroy" (.cancelTimer 5)) ∧
    (addEventListener (create "client-chosen" [] 0 10) "destroy" (.cancelTimer 5)).id =
      "client-chosen" ∧
    (addEventListener (create "client-chosen" [] 0 10) "destroy" (.cancelTimer 5)).data = [] ∧
    (addEventListener (create "client-chosen" [] 0 10) "destroy"
      (.cancelTimer 5)).createdUnix = 0 ∧
    mapGet (startFinish (create "client-chosen" [] 0 10)
        (mapSet ⟨[]⟩ "client-chosen" (create "client-chosen" [] 0 10)) 5).2 "client-chosen" =
      some (addEventListener (create "client-chosen" [] 0 10) "destroy" (.cancelTimer 5)) ∧
    start (some "client-chosen") ["u1"] 0 10 ⟨[]⟩ 5 =
      start (some "client-chosen") [] 0 10 ⟨[]⟩ 5) :=
  ⟨⟨by decide, by decide⟩,
   start_uses_presented_id "client-chosen" ["u1"] 0 10 ⟨[]⟩ 5 (by decide) (by decide)⟩

/-- Characters the JavaScript encodeURI function leaves unescaped: ASCII
letters and digits, the mark characters (codes 45 95 46 33 126 42 39 40 41:
hyphen, underscore, dot, bang, tilde, star, apostrophe and the two round
brackets), and the reserved set together with the number sign (codes
59 47 63 58 64 38 61 43 36 44 35). -/
def encodeURIUnescaped (c : Char) : Bool :=
  c.isAlpha || c.isDigit ||
  (c.toNat ∈ ([45, 95, 46, 33, 126, 42, 39, 40, 41,
               59, 47, 63, 58, 64, 38, 61, 43, 36, 44, 35] : List Nat))

/-- UTF-8 byte sequence of a unicode code point. -/
def utf8Bytes (n : Nat) : List Nat :=
  if n < 128 then [n]
  else if n < 2048 then [192 + n / 64, 128 + n % 64]
  else if n < 65536 then [224 + n / 4096, 128 + n / 64 % 64, 128 + n % 64]
  else [240 + n / 262144, 128 + n / 4096 % 64, 128 + n / 64 % 64, 128 + n % 64]

/-- Uppercase hexadecimal digit for a value below 16. -/
def hexDigit (n : Nat) : Char :=
  if n < 10 then Char.ofNat (48 + n) else Char.ofNat (55 + n)

/-- Percent-escape of one byte, as produced by encodeURI. -/
def percentByte (b : Nat) : String :=
  String.mk ['%', hexDigit (b / 16), hexDigit (b % 16)]

/-- Encoding of one character under the JavaScript encodeURI function. -/
def encodeURIChar (c : Char) : String :=
  if encodeURIUnescaped c then String.mk [c]
  else String.join ((utf8Bytes c.toNat).map percentByte)

/-- The JavaScript encodeURI function. -/
def encodeURI (s : String) : String :=
  String.join (s.data.map encodeURIChar)

/-- Three-letter weekday names in the order used by the toUTCString method of
Date, indexed from Sunday. -/
def weekdayName (i : Nat) : String :=
  ["Sun", "Mon", "Tue", "Wed", "Thu", "Fri", "Sat"].getD i ""

/-- Three-letter month names, indexed from 1. -/
def monthName (m : Nat) : String :=
  ["Jan", "Feb", "Mar", "Apr", "May", "Jun",
   "Jul", "Aug", "Sep", "Oct", "Nov", "Dec"].getD (m - 1) ""

/-- Two-digit zero-padded decimal rendering. -/
def pad2 (n : Nat) : String :=
  if n < 10 then "0" ++ toString n else toString n

/-- Rendering of a millisecond unix timestamp in the fixed RFC-1123 style
format of the toUTCString method of Date, for example
Thu, 01 Jan 1970 00:00:00 GMT.  The civil date is computed with the standard
civil-from-days calendar algorithm over 400-year eras. -/
def toUTCString (ms : Int) : String :=
  let totalSeconds := ms.ediv 1000
  let days := totalSeconds.ediv 86400
  let secsOfDay := (totalSeconds.emod 86400).toNat
  let hh := secsOfDay / 3600
  let mi := secsOfDay % 3600 / 60
  let ss := secsOfDay % 60
  let weekday := ((days + 4).emod 7).toNat
  let z := days + 719468
  let era := z.ediv 146097
  let doe := (z - era * 146097).toNat
  let yoe := (doe - doe / 1460 + doe / 36524 - doe / 146096) / 365
  let doy := doe - (365 * yoe + yoe / 4 - yoe / 100)
  let mp := (5 * doy + 2) / 153
  let d := doy - (153 * mp + 2) / 5 + 1
  let m := if mp < 10 then mp + 3 else mp - 9
  let y : Int := era * 400 + yoe + (if m ≤ 2 then 1 else 0)
  weekdayName weekday ++ ", " ++ pad2 d ++ " " ++ monthName m ++ " " ++
    toString y ++ " " ++ pad2 hh ++ ":" ++ pad2 mi ++ ":" ++ pad2 ss ++ " GMT"

/-- The init argument of the Response constructor, reduced to the fields the
model tracks: the status and the headers record; the source spreads the whole
init object and then overrides its headers field. -/
structure ResponseInitModel where
  status : Option Nat
  headers : Option (List (String × String))
  deriving Repr, DecidableEq

/-- The constructed Response object: the body, the status passed through from
init by the spread, and the headers record. -/
structure ResponseModel where
  body : Option String
  status : Option Nat
  headers : List (String × String)
  deriving Repr, DecidableEq

/-- JS object-literal update semantics: a later key-value pair overwrites the
value under an equal key in place, otherwise appends a new entry. -/
def objectSet (obj : List (String × String)) (kv : String × String) :
    List (String × String) :=
  if obj.any (fun p => p.1 = kv.1) then
    obj.map (fun p => if p.1 = kv.1 then (p.1, kv.2) else p)
  else obj ++ [kv]

/-- The Set-Cookie header value built by `response`
(src/lib/session.js:121-128): encodeURI of the session key and of the id,
the expiry rendered by toUTCString of `expiresAtUnix * 1000`, and the root
path. -/
def setCookieValue (sessionKey id : String) (expiresAtUnix : Int) : String :=
  encodeURI sessionKey ++ "=" ++ encodeURI id ++ "; Expires=" ++
    toUTCString (expiresAtUnix * 1000) ++ "; Path=/"

/-- Transcription of `response(body, init)` (src/lib/session.js:121-132): a
Response built from the body, the spread of init, and a headers object whose
literal opens with the Set-Cookie entry and then spreads the caller headers
(a missing init or headers field spreads as nothing); by object-literal
semantics a caller entry under the Set-Cookie key overwrites the session
cookie entry. -/
def response (sessionKey id : String) (expiresAtUnix : Int)
    (body : Option String) (init : Option ResponseInitModel) : ResponseModel :=
  { body := body
    status := init.bind (fun i => i.status)
    headers := ((init.bind (fun i => i.headers)).getD []).foldl objectSet
      [("Set-Cookie", setCookieValue sessionKey id expiresAtUnix)] }

/-- C6, counterexample: when the caller itself supplies a Set-Cookie header,
the response headers hold only the caller value — the session cookie entry
(shown fully evaluated at the epoch expiry) is overwritten by the spread and
absent from the result, so the session cookie is replaced, not added, and the
claimed entry is missing. -/
theorem response_setcookie_overridden :
    setCookieValue "KITSESSID" "abc" 0 =
      "KITSESSID=abc; Expires=Thu, 01 Jan 1970 00:00:00 GMT; Path=/" ∧
    (response "KITSESSID" "abc" 0 none
        (some ⟨none, some [("Set-Cookie", "stolen=1")]⟩)).headers =
      [("Set-Cookie", "stolen=1")] ∧
    ("Set-Cookie", setCookieValue "KITSESSID" "abc" 0) ∉
      (response "KITSESSID" "abc" 0 none
        (some ⟨none, some [("Set-Cookie", "stolen=1")]⟩)).headers := by
  refine ⟨by decide, by decide, by decide⟩

/-- Spreading caller headers whose keys are fresh for the accumulated object
appends them in order. -/
theorem foldl_objectSet_fresh (hs : List (String × String))
    (acc : List (String × String))
    (hnd : (hs.map Prod.fst).Nodup)
    (hdisj : ∀ p ∈ hs, ∀ q ∈ acc, q.1 ≠ p.1) :
    hs.foldl objectSet acc = acc ++ hs := by
  induction hs generalizing acc with
  | nil => simp
  | cons kv rest ih =>
    have hnotin : acc.any (fun p => p.1 = kv.1) = false := by
      rw [List.any_eq_false]
      intro q hq
      simpa using hdisj kv (List.mem_cons_self kv rest) q hq
    have hstep : objectSet acc kv = acc ++ [kv] := by
      unfold objectSet
      rw [hnotin]
      simp
    have hdisj2 : ∀ p ∈ rest, ∀ q ∈ acc ++ [kv], q.1 ≠ p.1 := by
      intro p hp q hq
      rcases List.mem_append.mp hq with hq1 | hq2
      · exact hdisj p (List.mem_cons_of_mem kv hp) q hq1
      · have hq3 : q = kv := by simpa using hq2
        have hkv : kv.1 ∉ rest.map Prod.fst := (List.nodup_cons.mp hnd).1
        rw [hq3]
        intro hcontra
        refine hkv ?_
        rw [hcontra]
        exact List.mem_map_of_mem Prod.fst hp
    rw [List.foldl_cons, hstep,
      ih (acc ++ [kv]) (by simpa using (List.nodup_cons.mp hnd).2) hdisj2]
    simp

/-- C6, amended: for every caller init whose headers do not themselves use
the Set-Cookie key (and carry no duplicate keys), the response headers are
exactly the session Set-Cookie entry followed by every caller header in
order, and the other init fields pass through — the session cookie is added
alongside the caller headers; only a caller-supplied Set-Cookie header
replaces it. -/
theorem response_adds_cookie_preserving_headers
    (sessionKey id : String) (e : Int) (body : Option String)
    (st : Option Nat) (hs : List (String × String))
    (hnd : (hs.map Prod.fst).Nodup)
    (hsc : "Set-Cookie" ∉ hs.map Prod.fst) :
    (response sessionKey id e body (some ⟨st, some hs⟩)).headers =
      ("Set-Cookie", setCookieValue sessionKey id e) :: hs ∧
    (response sessionKey id e body (some ⟨st, some hs⟩)).status = st ∧
    (response sessionKey id e body (some ⟨st, some hs⟩)).body = body := by
  refine ⟨?_, rfl, rfl⟩
  have hdisj : ∀ p ∈ hs,
      ∀ q ∈ ([("Set-Cookie", setCookieValue sessionKey id e)] : List (String × String)),
      q.1 ≠ p.1 := by
    intro p hp q hq
    have hq2 : q = ("Set-Cookie", setCookieValue sessionKey id e) := by simpa using hq
    rw [hq2]
    intro hcontra
    refine hsc ?_
    rw [show "Set-Cookie" = p.1 from hcontra]
    exact List.mem_map_of_mem Prod.fst hp
  show List.foldl objectSet [("Set-Cookie", setCookieValue sessionKey id e)] hs =
    ("Set-Cookie", setCookieValue sessionKey id e) :: hs
  rw [foldl_objectSet_fresh hs [("Set-Cookie", setCookieValue sessionKey id e)] hnd hdisj]
  rfl

/-- C6 witness: the amended statement instantiated with one caller header of
another name. -/
theorem response_adds_cookie_preserving_headers_witness :
    (((([("Content-Type", "text/html")] : List (String × String)).map Prod.fst).Nodup) ∧
      "Set-Cookie" ∉ ([("Content-Type", "text/html")] : List (String × String)).map Prod.fst) ∧
    ((response "KITSESSID" "abc" 0 (some "hello")
        (some ⟨some 201, some [("Content-Type", "text/html")]⟩)).headers =
      ("Set-Cookie", setCookieValue "KITSESSID" "abc" 0) ::
        [("Content-Type", "text/html")] ∧
     (response "KITSESSID" "abc" 0 (some "hello")
        (some ⟨some 201, some [("Content-Type", "text/html")]⟩)).status = some 201 ∧
     (response "KITSESSID" "abc" 0 (some "hello")
        (some ⟨some 201, some [("Content-Type", "text/html")]⟩)).body = some "hello") :=
  ⟨⟨by decide, by decide⟩,
   response_adds_cookie_preserving_headers "KITSESSID" "abc" 0 (some "hello")
     (some 201) [("Content-Type", "text/html")] (by decide) (by decide)⟩

end SvelteKitSession
